import Mathlib

/-!
A shallow embedding, in Lean 4, of the core of the `chess_in_rust` engine
(`src/engine.rs`, `src/transposition.rs`, `src/zobrist.rs`), together with
theorems settling the specification claims about it.

Modelling conventions:
* Rust `usize`/`u8`/`u32`/`u64` values are modelled as `Nat`; `i32` values as
  `Int`.  Wrap-around is written explicitly (`% 2 ^ 64`) where the source can
  wrap; the u32 counters (`halfmove_clock`, `fullmove`) are `Nat` whose
  increments wrap explicitly (`% 2 ^ 32`), the release-mode Rust semantics
  (a debug build would panic there instead).  Release-mode Rust wrapping subtraction
  on `usize` inside an `== 2` comparison behaves like truncated `Nat`
  subtraction for those comparisons, which is how it is modelled.
* Rust `Vec` stacks (`history`, `redo_stack`, TT buckets) are modelled as Lean
  `List`s; `push`/`pop` at the end of a `Vec` is modelled as `cons`/`head`
  at the front of the `List`.  Out-of-range reads use `List.getD` with the
  empty/default element; out-of-range writes (`List.set`) are no-ops.
* Loops are modelled as folds over `List.range`, or by fuelled recursion for
  the ray-scanning loops (the rays of a 0x88 board terminate within 8 steps,
  so any fuel ≥ 8 is exact; we use 128).
-/

set_option maxRecDepth 8000

namespace ChessRust

/-- Piece enumeration, from `engine.rs` (`enum Piece`). -/
inductive Piece where
  | Empty | WP | WN | WB | WR | WQ | WK | BP | BN | BB | BR | BQ | BK
deriving DecidableEq, Repr

/-- `Piece::is_white` from `engine.rs`. -/
def Piece.is_white : Piece → Bool
  | .WP | .WN | .WB | .WR | .WQ | .WK => true
  | _ => false

/-- `Piece::is_black` from `engine.rs`. -/
def Piece.is_black : Piece → Bool
  | .BP | .BN | .BB | .BR | .BQ | .BK => true
  | _ => false

/-- `Piece::is_empty` from `engine.rs`. -/
def Piece.is_empty (p : Piece) : Bool := p = Piece.Empty

/-- `Piece::from_char` from `engine.rs`. -/
def Piece.from_char (c : Char) : Piece :=
  if c = 'P' then .WP else if c = 'N' then .WN else if c = 'B' then .WB
  else if c = 'R' then .WR else if c = 'Q' then .WQ else if c = 'K' then .WK
  else if c = 'p' then .BP else if c = 'n' then .BN else if c = 'b' then .BB
  else if c = 'r' then .BR else if c = 'q' then .BQ else if c = 'k' then .BK
  else .Empty

/-- `fn sq(rank, file)` from `engine.rs`: `(rank << 4) | file`. -/
def sq (r f : Nat) : Nat := (r <<< 4) ||| f

/-- `fn on_board(s)` from `engine.rs`: `(s & 0x88) == 0`. -/
def on_board (s : Nat) : Bool := s &&& 0x88 == 0

/-- `struct Undo` from `engine.rs`. -/
structure Undo where
  mv_from : Nat
  mv_to : Nat
  moved_piece : Piece
  captured : Piece
  prev_castling : Nat
  prev_ep : Option Nat
  prev_halfmove : Nat
  promotion : Option Piece
deriving DecidableEq, Repr

/-- `struct Board` from `engine.rs`. -/
structure Board where
  cells : List Piece        -- [Piece; 128]
  side_white : Bool
  castling : Nat            -- u8 bit mask
  ep : Option Nat
  halfmove_clock : Nat
  fullmove : Nat
  history : List Undo       -- head = top of the Vec
  redo_stack : List Undo    -- head = top of the Vec
deriving DecidableEq, Repr

/-- `Board::empty` from `engine.rs`. -/
def Board.empty : Board :=
  { cells := List.replicate 128 Piece.Empty
    side_white := true
    castling := 0
    ep := none
    halfmove_clock := 0
    fullmove := 1
    history := []
    redo_stack := [] }

/-- `Board::piece_at` from `engine.rs` (`self.cells[s]`, with the
out-of-range read defaulting to `Empty` where Rust would panic). -/
def Board.piece_at (b : Board) (s : Nat) : Piece := b.cells.getD s Piece.Empty

/-- `Board::make_move` from `engine.rs`, translated statement by statement. -/
def Board.make_move (b : Board) (mfrom mto : Nat) (promotion : Option Piece) : Board :=
  let captured := b.cells.getD mto Piece.Empty
  let prev_cast := b.castling
  let prev_ep := b.ep
  let prev_half := b.halfmove_clock
  let moved_piece := b.cells.getD mfrom Piece.Empty
  -- en passant capture
  let epStep : List Piece × Piece :=
    match b.ep with
    | some ep_sq =>
      if b.cells.getD mfrom Piece.Empty = Piece.WP ∧ mto = ep_sq ∧ mfrom >>> 4 = 4 then
        let cap_sq := mto - 16
        (b.cells.set cap_sq Piece.Empty, b.cells.getD cap_sq Piece.Empty)
      else if b.cells.getD mfrom Piece.Empty = Piece.BP ∧ mto = ep_sq ∧ mfrom >>> 4 = 3 then
        let cap_sq := mto + 16
        (b.cells.set cap_sq Piece.Empty, b.cells.getD cap_sq Piece.Empty)
      else (b.cells, captured)
    | none => (b.cells, captured)
  let cells := epStep.1
  let actual_captured := epStep.2
  -- move piece
  let moving := cells.getD mfrom Piece.Empty
  let cells := cells.set mfrom Piece.Empty
  let moving := match promotion with
    | some prom => prom
    | none => moving
  let cells := cells.set mto moving
  -- crude castling update
  let castling := b.castling
  let castling := if moved_piece = Piece.WK then castling &&& 252 else castling
  let castling := if moved_piece = Piece.BK then castling &&& 243 else castling
  -- if rook captured or moved
  let castling := if mfrom = sq 0 0 ∨ mto = sq 0 0 then castling &&& 253 else castling
  let castling := if mfrom = sq 0 7 ∨ mto = sq 0 7 then castling &&& 254 else castling
  let castling := if mfrom = sq 7 0 ∨ mto = sq 7 0 then castling &&& 247 else castling
  let castling := if mfrom = sq 7 7 ∨ mto = sq 7 7 then castling &&& 251 else castling
  -- handle castling move proper: move rook
  let cells :=
    if moved_piece = Piece.WK ∧ mfrom = sq 0 4 ∧ mto = sq 0 6 then
      (cells.set (sq 0 7) Piece.Empty).set (sq 0 5) Piece.WR
    else if moved_piece = Piece.WK ∧ mfrom = sq 0 4 ∧ mto = sq 0 2 then
      (cells.set (sq 0 0) Piece.Empty).set (sq 0 3) Piece.WR
    else cells
  let cells :=
    if moved_piece = Piece.BK ∧ mfrom = sq 7 4 ∧ mto = sq 7 6 then
      (cells.set (sq 7 7) Piece.Empty).set (sq 7 5) Piece.BR
    else if moved_piece = Piece.BK ∧ mfrom = sq 7 4 ∧ mto = sq 7 2 then
      (cells.set (sq 7 0) Piece.Empty).set (sq 7 3) Piece.BR
    else cells
  -- update en passant target
  let ep : Option Nat := none
  let ep := if moved_piece = Piece.WP ∧ (mto >>> 4) - (mfrom >>> 4) = 2
    then some (mfrom + 16) else ep
  let ep := if moved_piece = Piece.BP ∧ (mfrom >>> 4) - (mto >>> 4) = 2
    then some (mfrom - 16) else ep
  -- halfmove clock
  let halfmove :=
    if moved_piece = Piece.WP ∨ moved_piece = Piece.BP ∨ ¬ actual_captured.is_empty
    then 0 else (b.halfmove_clock + 1) % 2 ^ 32
  let fullmove := if ¬ b.side_white then (b.fullmove + 1) % 2 ^ 32 else b.fullmove
  let u : Undo :=
    { mv_from := mfrom, mv_to := mto, moved_piece := moved_piece
      captured := actual_captured, prev_castling := prev_cast
      prev_ep := prev_ep, prev_halfmove := prev_half, promotion := promotion }
  { cells := cells
    side_white := ¬ b.side_white
    castling := castling
    ep := ep
    halfmove_clock := halfmove
    fullmove := fullmove
    history := u :: b.history
    redo_stack := [] }

/-- `Board::undo_move` from `engine.rs`, translated statement by statement. -/
def Board.undo_move (b : Board) : Board :=
  match b.history with
  | [] => b
  | u :: rest =>
    let redo_entry : Undo :=
      { mv_from := u.mv_from, mv_to := u.mv_to, moved_piece := u.moved_piece
        captured := u.captured, prev_castling := b.castling
        prev_ep := b.ep, prev_halfmove := b.halfmove_clock
        promotion := u.promotion }
    let redo_stack := redo_entry :: b.redo_stack
    -- 1. flip side back
    let side_white := ¬ b.side_white
    -- 2. restore fullmove counter
    let fullmove := if side_white then max (b.fullmove - 1) 1 else b.fullmove
    -- 4./5. restore source square and captured piece
    let cells := b.cells.set u.mv_from u.moved_piece
    let cells := cells.set u.mv_to u.captured
    -- 6. en passant capture undo
    let cells :=
      match u.prev_ep with
      | some ep_sq =>
        if u.moved_piece = Piece.WP ∧ u.mv_to = ep_sq ∧ u.mv_from >>> 4 = 4 then
          (cells.set (u.mv_to - 16) Piece.BP).set u.mv_to Piece.Empty
        else if u.moved_piece = Piece.BP ∧ u.mv_to = ep_sq ∧ u.mv_from >>> 4 = 3 then
          (cells.set (u.mv_to + 16) Piece.WP).set u.mv_to Piece.Empty
        else cells
      | none => cells
    -- 7. undo castling rook move
    let cells :=
      if u.moved_piece = Piece.WK ∧ u.mv_from = sq 0 4 then
        if u.mv_to = sq 0 6 then (cells.set (sq 0 5) Piece.Empty).set (sq 0 7) Piece.WR
        else if u.mv_to = sq 0 2 then (cells.set (sq 0 3) Piece.Empty).set (sq 0 0) Piece.WR
        else cells
      else if u.moved_piece = Piece.BK ∧ u.mv_from = sq 7 4 then
        if u.mv_to = sq 7 6 then (cells.set (sq 7 5) Piece.Empty).set (sq 7 7) Piece.BR
        else if u.mv_to = sq 7 2 then (cells.set (sq 7 3) Piece.Empty).set (sq 7 0) Piece.BR
        else cells
      else cells
    -- 8. restore previous state
    { cells := cells
      side_white := side_white
      castling := u.prev_castling
      ep := u.prev_ep
      halfmove_clock := u.prev_halfmove
      fullmove := fullmove
      history := rest
      redo_stack := redo_stack }

/-- `Board::redo_move` from `engine.rs`, translated statement by statement. -/
def Board.redo_move (b : Board) : Board :=
  match b.redo_stack with
  | [] => b
  | u :: rest =>
    let moved_piece := b.cells.getD u.mv_from Piece.Empty
    let captured := b.cells.getD u.mv_to Piece.Empty
    let hist_entry : Undo :=
      { mv_from := u.mv_from, mv_to := u.mv_to, moved_piece := moved_piece
        captured := captured, prev_castling := b.castling
        prev_ep := b.ep, prev_halfmove := b.halfmove_clock
        promotion := u.promotion }
    let history := hist_entry :: b.history
    -- en passant capture
    let cells :=
      match b.ep with
      | some ep_sq =>
        if moved_piece = Piece.WP ∧ u.mv_to = ep_sq ∧ u.mv_from >>> 4 = 4 then
          b.cells.set (u.mv_to - 16) Piece.Empty
        else if moved_piece = Piece.BP ∧ u.mv_to = ep_sq ∧ u.mv_from >>> 4 = 3 then
          b.cells.set (u.mv_to + 16) Piece.Empty
        else b.cells
      | none => b.cells
    -- move the piece
    let moving := cells.getD u.mv_from Piece.Empty
    let cells := cells.set u.mv_from Piece.Empty
    let moving := match u.promotion with
      | some prom => prom
      | none => moving
    let cells := cells.set u.mv_to moving
    -- castling rook move
    let cells :=
      if moved_piece = Piece.WK ∧ u.mv_from = sq 0 4 then
        if u.mv_to = sq 0 6 then (cells.set (sq 0 7) Piece.Empty).set (sq 0 5) Piece.WR
        else if u.mv_to = sq 0 2 then (cells.set (sq 0 0) Piece.Empty).set (sq 0 3) Piece.WR
        else cells
      else if moved_piece = Piece.BK ∧ u.mv_from = sq 7 4 then
        if u.mv_to = sq 7 6 then (cells.set (sq 7 7) Piece.Empty).set (sq 7 5) Piece.BR
        else if u.mv_to = sq 7 2 then (cells.set (sq 7 0) Piece.Empty).set (sq 7 3) Piece.BR
        else cells
      else cells
    let side_white := ¬ b.side_white
    let fullmove := if ¬ side_white then (b.fullmove + 1) % 2 ^ 32 else b.fullmove
    { cells := cells
      side_white := side_white
      castling := u.prev_castling
      ep := u.prev_ep
      halfmove_clock := u.prev_halfmove
      fullmove := fullmove
      history := history
      redo_stack := rest }

/-- `struct Move` from `engine.rs` (`from`/`to` renamed `mfrom`/`mto`:
`from` is a Lean keyword). -/
structure Move where
  mfrom : Nat
  mto : Nat
  promotion : Option Piece
deriving DecidableEq, Repr

/-- `KNIGHT_DELTAS` from `engine.rs`. -/
def KNIGHT_DELTAS : List Int := [33, 31, 18, 14, -33, -31, -18, -14]
/-- `KING_DELTAS` from `engine.rs`. -/
def KING_DELTAS : List Int := [16, 1, -16, -1, 17, 15, -15, -17]
/-- `ROOK_DELTAS` from `engine.rs`. -/
def ROOK_DELTAS : List Int := [16, 1, -16, -1]
/-- `BISHOP_DELTAS` from `engine.rs`. -/
def BISHOP_DELTAS : List Int := [17, 15, -17, -15]

/-- Rust `expr as usize` on an `i32` value: two's-complement wrap into 64 bits. -/
def as_usize (x : Int) : Nat := (x % (2 : Int) ^ 64).toNat

/-- `gen_leaper_moves` from `engine.rs`. -/
def gen_leaper_moves (b : Board) (s : Nat) (deltas : List Int) : List Move :=
  deltas.flatMap fun d =>
    let ns := as_usize ((s : Int) + d)
    if ¬ on_board ns then []
    else
      let p := b.piece_at ns
      if p.is_empty ∨ (b.side_white ∧ p.is_black) ∨ (¬ b.side_white ∧ p.is_white) then
        [⟨s, ns, none⟩]
      else []

/-- The `while` loop body of `gen_slider_moves` from `engine.rs`.  The loop
walks a ray of the 0x88 board and stops after at most 8 steps; fuel 128 is
therefore exact. -/
def gen_slider_go (b : Board) (s : Nat) (d : Int) : Nat → Int → List Move
  | 0, _ => []
  | fuel + 1, ns =>
    if ns ≥ 0 ∧ on_board ns.toNat then
      let nsu := ns.toNat
      let p := b.piece_at nsu
      if p.is_empty then ⟨s, nsu, none⟩ :: gen_slider_go b s d fuel (ns + d)
      else if (b.side_white ∧ p.is_black) ∨ (¬ b.side_white ∧ p.is_white) then [⟨s, nsu, none⟩]
      else []
    else []

/-- `gen_slider_moves` from `engine.rs`. -/
def gen_slider_moves (b : Board) (s : Nat) (deltas : List Int) : List Move :=
  deltas.flatMap fun d => gen_slider_go b s d 128 ((s : Int) + d)

/-- The four promotion moves pushed by `gen_pawn_moves` (Q, R, B, N order). -/
def promo_moves (s nsu : Nat) (white : Bool) : List Move :=
  [⟨s, nsu, some (if white then Piece.WQ else Piece.BQ)⟩,
   ⟨s, nsu, some (if white then Piece.WR else Piece.BR)⟩,
   ⟨s, nsu, some (if white then Piece.WB else Piece.BB)⟩,
   ⟨s, nsu, some (if white then Piece.WN else Piece.BN)⟩]

/-- `gen_pawn_moves` from `engine.rs`. -/
def gen_pawn_moves (b : Board) (s : Nat) (white : Bool) : List Move :=
  let dir : Int := if white then 16 else -16
  let start_rank : Int := if white then 1 else 6
  let r : Int := (s >>> 4 : Nat)
  let one := as_usize ((s : Int) + dir)
  -- single push (with promotions) and double push
  let pushes :=
    if on_board one ∧ (b.piece_at one).is_empty then
      if (white ∧ one >>> 4 = 7) ∨ (¬ white ∧ one >>> 4 = 0) then
        promo_moves s one white
      else
        let single : List Move := [⟨s, one, none⟩]
        if r = start_rank then
          let two := as_usize ((s : Int) + dir * 2)
          if on_board two ∧ (b.piece_at two).is_empty then
            single ++ [⟨s, two, none⟩]
          else single
        else single
    else []
  -- captures
  let caps := [dir + 1, dir - 1].flatMap fun cap_dir =>
    let ns : Int := (s : Int) + cap_dir
    if ns < 0 then []
    else
      let nsu := ns.toNat
      if ¬ on_board nsu then []
      else
        let p := b.piece_at nsu
        if ¬ p.is_empty ∧ ((white ∧ p.is_black) ∨ (¬ white ∧ p.is_white)) then
          if (white ∧ nsu >>> 4 = 7) ∨ (¬ white ∧ nsu >>> 4 = 0) then
            promo_moves s nsu white
          else [⟨s, nsu, none⟩]
        else []
  -- en passant
  let eps :=
    match b.ep with
    | some ep =>
      if ((ep : Int) = s + 15 ∨ (ep : Int) = s + 17 ∨
          (ep : Int) = (s : Int) - 15 ∨ (ep : Int) = (s : Int) - 17) ∧ on_board ep then
        if white then
          if ep >>> 4 = 5 ∧ s >>> 4 = 4 ∧ (((ep &&& 15 : Nat) : Int) - ((s &&& 15 : Nat) : Int)).natAbs = 1 then
            [⟨s, ep, none⟩]
          else []
        else
          if ep >>> 4 = 2 ∧ s >>> 4 = 3 ∧ (((ep &&& 15 : Nat) : Int) - ((s &&& 15 : Nat) : Int)).natAbs = 1 then
            [⟨s, ep, none⟩]
          else []
      else []
    | none => []
  pushes ++ caps ++ eps

/-- `gen_castling` from `engine.rs`: naive, checks only the rights bit and
that the intervening squares are empty. -/
def gen_castling (b : Board) : List Move :=
  if b.side_white then
    (if b.castling &&& 1 ≠ 0 ∧
        (b.piece_at (sq 0 5)).is_empty ∧ (b.piece_at (sq 0 6)).is_empty then
      [⟨sq 0 4, sq 0 6, none⟩] else []) ++
    (if b.castling &&& 2 ≠ 0 ∧
        (b.piece_at (sq 0 3)).is_empty ∧ (b.piece_at (sq 0 2)).is_empty ∧
        (b.piece_at (sq 0 1)).is_empty then
      [⟨sq 0 4, sq 0 2, none⟩] else [])
  else
    (if b.castling &&& 4 ≠ 0 ∧
        (b.piece_at (sq 7 5)).is_empty ∧ (b.piece_at (sq 7 6)).is_empty then
      [⟨sq 7 4, sq 7 6, none⟩] else []) ++
    (if b.castling &&& 8 ≠ 0 ∧
        (b.piece_at (sq 7 3)).is_empty ∧ (b.piece_at (sq 7 2)).is_empty ∧
        (b.piece_at (sq 7 1)).is_empty then
      [⟨sq 7 4, sq 7 2, none⟩] else [])

/-- One sliding ray of `is_square_attacked` from `engine.rs` (the inner
`while` loop); `pred` is the piece test of the matching branch. -/
def ray_attacked (b : Board) (d : Int) (pred : Piece → Bool) : Nat → Int → Bool
  | 0, _ => false
  | fuel + 1, a =>
    if a ≥ 0 ∧ on_board a.toNat then
      let p := b.piece_at a.toNat
      if ¬ p.is_empty then pred p
      else ray_attacked b d pred fuel (a + d)
    else false

/-- `is_square_attacked` from `engine.rs`. -/
def is_square_attacked (b : Board) (s : Nat) (by_white : Bool) : Bool :=
  -- pawns
  (let attacks : List Int :=
    if by_white then [(s : Int) - 17, (s : Int) - 15] else [(s : Int) + 17, (s : Int) + 15]
   attacks.any fun a =>
    decide (a ≥ 0) && on_board a.toNat &&
      decide (b.piece_at a.toNat = if by_white then Piece.WP else Piece.BP)) ||
  -- knights
  (KNIGHT_DELTAS.any fun d =>
    let a := (s : Int) + d
    decide (a ≥ 0) && on_board a.toNat &&
      (let p := b.piece_at a.toNat
       (by_white && decide (p = Piece.WN)) || (!by_white && decide (p = Piece.BN)))) ||
  -- rook/queen rays
  (ROOK_DELTAS.any fun d =>
    ray_attacked b d
      (fun p => (by_white && decide (p = Piece.WR ∨ p = Piece.WQ)) ||
                (!by_white && decide (p = Piece.BR ∨ p = Piece.BQ)))
      128 ((s : Int) + d)) ||
  -- bishop/queen rays
  (BISHOP_DELTAS.any fun d =>
    ray_attacked b d
      (fun p => (by_white && decide (p = Piece.WB ∨ p = Piece.WQ)) ||
                (!by_white && decide (p = Piece.BB ∨ p = Piece.BQ)))
      128 ((s : Int) + d)) ||
  -- king
  (KING_DELTAS.any fun d =>
    let a := (s : Int) + d
    decide (a ≥ 0) && on_board a.toNat &&
      (let p := b.piece_at a.toNat
       (by_white && decide (p = Piece.WK)) || (!by_white && decide (p = Piece.BK))))

/-- `Board::find_king` from `engine.rs`. -/
def Board.find_king (b : Board) (white : Bool) : Option Nat :=
  (List.range 8).findSome? fun r =>
    (List.range 8).findSome? fun f =>
      let s := sq r f
      let p := b.cells.getD s Piece.Empty
      if (white ∧ p = Piece.WK) ∨ (¬ white ∧ p = Piece.BK) then some s else none

/-- `is_king_attacked` from `engine.rs`. -/
def is_king_attacked (b : Board) (white_king : Bool) : Bool :=
  match b.find_king white_king with
  | some kpos => is_square_attacked b kpos (! white_king)
  | none => true

/-- `gen_moves` from `engine.rs`: pseudo-legal generation per piece, plus
naive castling, then the filter `!is_king_attacked(&b2, !board.side_white)`
exactly as written in the source (note the source filters on the king of
`!board.side_white`, i.e. the side that is about to move in `b2`). -/
def gen_moves (b : Board) : List Move :=
  let moves := (List.range 8).flatMap fun r =>
    (List.range 8).flatMap fun f =>
      let s := sq r f
      let p := b.piece_at s
      if p.is_empty then []
      else if b.side_white ∧ ¬ p.is_white then []
      else if ¬ b.side_white ∧ ¬ p.is_black then []
      else
        match p with
        | .WP => gen_pawn_moves b s true
        | .BP => gen_pawn_moves b s false
        | .WN | .BN => gen_leaper_moves b s KNIGHT_DELTAS
        | .WB | .BB => gen_slider_moves b s BISHOP_DELTAS
        | .WR | .BR => gen_slider_moves b s ROOK_DELTAS
        | .WQ | .BQ => gen_slider_moves b s ROOK_DELTAS ++ gen_slider_moves b s BISHOP_DELTAS
        | .WK | .BK => gen_leaper_moves b s KING_DELTAS
        | .Empty => []
  let moves := moves ++ gen_castling b
  moves.filter fun m =>
    ! is_king_attacked (b.make_move m.mfrom m.mto m.promotion) (! b.side_white)

/-- `eval` from `engine.rs`: material-only evaluation. -/
def eval (b : Board) : Int :=
  let score := (List.range 8).foldl (fun acc r =>
    (List.range 8).foldl (fun acc f =>
      acc + (match b.piece_at (sq r f) with
        | .WP => 100 | .WN => 320 | .WB => 330 | .WR => 500 | .WQ => 900 | .WK => 20000
        | .BP => -100 | .BN => -320 | .BB => -330 | .BR => -500 | .BQ => -900 | .BK => -20000
        | .Empty => 0)) acc) (0 : Int)
  if ¬ b.side_white then -score else score

/-! ## Zobrist hashing (`zobrist.rs`) -/

/-- `struct Zobrist` from `zobrist.rs`.  The key tables are modelled as
functions; the concrete values produced by `StdRng` are irrelevant to every
claim, which either quantifies over the tables or instantiates them. -/
structure Zobrist where
  pieces : Nat → Nat → Nat   -- [square][piece index], u64 keys
  side : Nat
  castling : Nat → Nat       -- [16]
  ep_file : Nat → Nat        -- [8]
  ep_square : Nat → Nat      -- [128] (generated but unused by hash_board)
  seed : Nat

/-- `Zobrist::piece_index` from `zobrist.rs`. -/
def Zobrist.piece_index : Piece → Option Nat
  | .WP => some 0 | .WN => some 1 | .WB => some 2 | .WR => some 3
  | .WQ => some 4 | .WK => some 5 | .BP => some 6 | .BN => some 7
  | .BB => some 8 | .BR => some 9 | .BQ => some 10 | .BK => some 11
  | .Empty => none

/-- `Zobrist::hash_board` from `zobrist.rs` (the returned key; the source
additionally bumps two statistics counters on `&mut self`, which do not feed
into the key and are not modelled). -/
def Zobrist.hash_board (z : Zobrist) (b : Board) : Nat :=
  let h := (List.range 128).foldl
    (fun h s =>
      if s &&& 0x88 ≠ 0 then h
      else match Zobrist.piece_index (b.cells.getD s Piece.Empty) with
        | some idx => h ^^^ z.pieces s idx
        | none => h)
    0
  let h := h ^^^ z.castling b.castling
  let h := match b.ep with
    | some ep_sq => if ep_sq &&& 15 < 8 then h ^^^ z.ep_file (ep_sq &&& 15) else h
    | none => h
  if b.side_white then h ^^^ z.side else h

/-! ## Transposition table (`transposition.rs`) -/

/-- `enum NodeType` from `transposition.rs`. -/
inductive NodeType where
  | Exact | LowerBound | UpperBound
deriving DecidableEq, Repr

/-- `struct PackedMove(u32)` from `transposition.rs`. -/
structure PackedMove where
  val : Nat
deriving DecidableEq, Repr

/-- `PackedMove::none` from `transposition.rs`. -/
def PackedMove.none : PackedMove := ⟨0⟩

/-- `PackedMove::pack` from `transposition.rs`. -/
def PackedMove.pack (f t : Nat) (promo_id : Nat) : PackedMove :=
  ⟨(f &&& 0x7F) ||| ((t &&& 0x7F) <<< 7) ||| ((promo_id &&& 0x0F) <<< 14)⟩

/-- `PackedMove::unpack` from `transposition.rs`. -/
def PackedMove.unpack (m : PackedMove) : Nat × Nat × Nat :=
  (m.val &&& 0x7F, (m.val >>> 7) &&& 0x7F, (m.val >>> 14) &&& 0x0F)

/-- `struct TTEntry` from `transposition.rs`. -/
structure TTEntry where
  key : Nat
  value : Int
  depth : Int
  node : NodeType
  age : Nat
  best : PackedMove
deriving DecidableEq, Repr

/-- `TTEntry::empty` from `transposition.rs`. -/
def TTEntry.empty : TTEntry :=
  { key := 0, value := 0, depth := -1, node := .Exact, age := 0, best := PackedMove.none }

/-- `TTEntry::is_empty` from `transposition.rs`. -/
def TTEntry.is_empty (e : TTEntry) : Bool := e.depth < 0

/-- `enum ProbeResult` from `transposition.rs`. -/
inductive ProbeResult where
  | Miss
  | Found (entry : TTEntry)
  | Usable (value : Int) (best : Option PackedMove)
deriving DecidableEq, Repr

/-- `struct TranspositionTable` from `transposition.rs`. -/
structure TranspositionTable where
  buckets : List TTEntry
  mask : Nat
  age : Nat          -- u8
  probes : Nat       -- u64
  hits : Nat         -- u64
  stores : Nat       -- u64
deriving DecidableEq, Repr

/-- The `while count < buckets { count <<= 1 }` loop of
`TranspositionTable::new_buckets`; 64 iterations suffice for any u64 input. -/
def round_pow2 : Nat → Nat → Nat → Nat
  | 0, count, _ => count
  | fuel + 1, count, target =>
    if count < target then round_pow2 fuel (count <<< 1) target else count

/-- `TranspositionTable::new_buckets` from `transposition.rs`. -/
def TranspositionTable.new_buckets (buckets : Nat) : TranspositionTable :=
  let count := round_pow2 64 1 buckets
  { buckets := List.replicate count TTEntry.empty
    mask := count - 1
    age := 1
    probes := 0, hits := 0, stores := 0 }

/-- `TranspositionTable::index_of` from `transposition.rs`. -/
def TranspositionTable.index_of (tt : TranspositionTable) (key : Nat) : Nat :=
  (key ^^^ (key >>> 32) ^^^ (key >>> 16)) &&& tt.mask

/-- `TranspositionTable::probe` from `transposition.rs`.  The Rust method
mutates `self` (the statistics counters); the model returns the updated
table alongside the result. -/
def TranspositionTable.probe (tt : TranspositionTable) (key : Nat)
    (depth alpha beta : Int) : ProbeResult × TranspositionTable :=
  let tt := { tt with probes := (tt.probes + 1) % 2 ^ 64 }
  let idx := tt.index_of key
  let entry := tt.buckets.getD idx TTEntry.empty
  if entry.is_empty ∨ entry.key ≠ key then (.Miss, tt)
  else
    let tt := { tt with hits := (tt.hits + 1) % 2 ^ 64 }
    if entry.depth ≥ depth then
      match entry.node with
      | .Exact => (.Usable entry.value (some entry.best), tt)
      | .LowerBound =>
        if entry.value ≥ beta then (.Usable entry.value (some entry.best), tt)
        else (.Found entry, tt)
      | .UpperBound =>
        if entry.value ≤ alpha then (.Usable entry.value (some entry.best), tt)
        else (.Found entry, tt)
    else (.Found entry, tt)

/-- Packing of the optional best move inside `TranspositionTable::store`
(the `let mut packed = PackedMove::none(); if let Some(..)` block). -/
def packed_of_best : Option (Nat × Nat × Nat) → PackedMove
  | some (f, t, promo_id) => PackedMove.pack f t promo_id
  | none => PackedMove.none

/-- `TranspositionTable::store` from `transposition.rs`. -/
def TranspositionTable.store (tt : TranspositionTable) (key : Nat) (depth : Int)
    (value : Int) (node : NodeType) (best_move : Option (Nat × Nat × Nat)) :
    TranspositionTable :=
  let tt := { tt with stores := (tt.stores + 1) % 2 ^ 64 }
  let idx := tt.index_of key
  let old := tt.buckets.getD idx TTEntry.empty
  let packed := packed_of_best best_move
  let new_entry : TTEntry :=
    { key := key, value := value, depth := depth, node := node, age := tt.age, best := packed }
  let replace : Bool :=
    if old.is_empty then true
    else if new_entry.depth > old.depth then true
    else if new_entry.depth = old.depth then
      if new_entry.age ≠ old.age then true
      else
        match new_entry.node, old.node with
        | .Exact, .Exact => true
        | .Exact, _ => true
        | .LowerBound, .UpperBound => true
        | _, _ => false
    else
      if old.age ≠ tt.age then true else false
  if replace then { tt with buckets := tt.buckets.set idx new_entry }
  else if old.key = key ∧ new_entry.depth ≥ old.depth then
    { tt with buckets := tt.buckets.set idx new_entry }
  else tt

/-! ## Search (`engine.rs`: `negamax`, `quiescence`)

The Rust search takes `&mut Board` and `&mut SearchInfo`; the model threads
both explicitly and returns them.  `SearchInfo::time_limit` is modelled as
`None` (no deadline): wall-clock time is outside the embedding, and with
`time_limit == None` the source's two deadline checks are dead code.
Recursion is fuelled; every claim about the search concerns branches that
return before any recursive call, so any positive fuel is exact for them. -/

/-- `struct SearchInfo` from `engine.rs` (minus `start`/`time_limit`,
modelled as "no deadline"). -/
structure SearchInfo where
  nodes : Nat     -- u64
  tt : TranspositionTable
  zob : Zobrist

/-- `piece_to_promo_id` from `engine.rs`. -/
def piece_to_promo_id : Option Piece → Nat
  | some .WQ | some .BQ => 1
  | some .WR | some .BR => 2
  | some .WB | some .BB => 3
  | some .WN | some .BN => 4
  | _ => 0

/-- `piece_from_promo_id` from `engine.rs`. -/
def piece_from_promo_id : Nat → Option Piece
  | 1 => some .WQ
  | 2 => some .WR
  | 3 => some .WB
  | 4 => some .WN
  | _ => none

mutual

/-- `negamax` from `engine.rs`, with fuel.  Returns the score together with
the threaded board and search info. -/
def negamax : Nat → Board → Int → Int → Int → Int → SearchInfo →
    Int × Board × SearchInfo
  | 0, b, _, _, _, _, info => (0, b, info)
  | fuel + 1, b, depth, ply, alpha, beta, info =>
    let info := { info with nodes := (info.nodes + 1) % 2 ^ 64 }
    -- TT probe
    let key := info.zob.hash_board b
    let pr := info.tt.probe key depth alpha beta
    let info := { info with tt := pr.2 }
    match pr.1 with
    | .Usable score _best => (score, b, info)
    | res =>
      let tt_move : Option Move :=
        match res with
        | .Found entry =>
          if entry.best ≠ PackedMove.none then
            some ⟨entry.best.unpack.1, entry.best.unpack.2.1,
                  piece_from_promo_id entry.best.unpack.2.2⟩
          else none
        | _ => none
      if depth = 0 then quiescence fuel b alpha beta info
      else
        let a := alpha
        let moves := gen_moves b
        if moves.isEmpty then
          -- checkmate or stalemate
          (if is_king_attacked b b.side_white then -100000 + (100 - depth) else 0, b, info)
        else
          -- ordering: TT move first, then sort_by_key (quiets 0, captures 1)
          let moves :=
            match tt_move with
            | some tm =>
              match moves.findIdx?
                  (fun (m : Move) => decide (m.mfrom = tm.mfrom) && decide (m.mto = tm.mto)) with
              | some pos =>
                match moves[pos]? with
                | some pv => pv :: moves.eraseIdx pos
                | none => moves
              | none => moves
            | none => moves
          let moves := moves.mergeSort fun m1 m2 =>
            (if (b.piece_at m1.mto).is_empty then 0 else 1 : Nat) ≤
            (if (b.piece_at m2.mto).is_empty then 0 else 1)
          let step : (Board × SearchInfo × Int × Option Move × Int × Bool) → Move →
              Board × SearchInfo × Int × Option Move × Int × Bool :=
            fun st m =>
              let (bd, inf, best, bmh, a, cut) := st
              if cut then (bd, inf, best, bmh, a, cut)
              else
                let bd := bd.make_move m.mfrom m.mto m.promotion
                let r := negamax fuel bd (depth - 1) (ply + 1) (-beta) (-a) inf
                let val := -r.1
                let bd := r.2.1.undo_move
                let inf := r.2.2
                let best2 := if val > best then val else best
                let bmh2 := if val > best then some m else bmh
                let a2 := if val > a then val else a
                (bd, inf, best2, bmh2, a2, decide (a2 ≥ beta))
          let res := moves.foldl step (b, info, -999999, none, a, false)
          let bd := res.1
          let info := res.2.1
          let best := res.2.2.1
          let best_move_here := res.2.2.2.1
          -- store in TT
          let node_type :=
            if best ≤ alpha then NodeType.UpperBound
            else if best ≥ beta then NodeType.LowerBound
            else NodeType.Exact
          let best_packed :=
            match best_move_here with
            | some bm => some (bm.mfrom, bm.mto, piece_to_promo_id bm.promotion)
            | none => none
          let info := { info with tt := info.tt.store key depth best node_type best_packed }
          (best, bd, info)

/-- `quiescence` from `engine.rs`, with fuel. -/
def quiescence : Nat → Board → Int → Int → SearchInfo → Int × Board × SearchInfo
  | 0, b, _, _, info => (0, b, info)
  | fuel + 1, b, alpha, beta, info =>
    let info := { info with nodes := (info.nodes + 1) % 2 ^ 64 }
    let stand := eval b
    if stand ≥ beta then (beta, b, info)
    else
      let a := if stand > alpha then stand else alpha
      let moves := (gen_moves b).filter fun m => ! (b.piece_at m.mto).is_empty
      let step : (Board × SearchInfo × Int × Option Int) → Move →
          Board × SearchInfo × Int × Option Int :=
        fun st m =>
          let (bd, inf, a, done) := st
          match done with
          | some r => (bd, inf, a, some r)
          | none =>
            let bd := bd.make_move m.mfrom m.mto m.promotion
            let r := quiescence fuel bd (-beta) (-a) inf
            let score := -r.1
            let bd := r.2.1.undo_move
            let inf := r.2.2
            if score ≥ beta then (bd, inf, a, some beta)
            else if score > a then (bd, inf, score, none)
            else (bd, inf, a, none)
      let res := moves.foldl step (b, info, a, none)
      match res.2.2.2 with
      | some r => (r, res.1, res.2.1)
      | none => (res.2.2.1, res.1, res.2.1)

end

/-! ## FEN parsing (`engine.rs`: `alg_to_sq`, `Board::from_fen`)

Lean's own `String.split`/`String.trim`/`String.toNat?` are defined by
well-founded recursion and do not reduce in the kernel, so the Rust string
primitives (`split_whitespace`, `split(char)`, `trim`, `parse::<u32>`) are
modelled directly over `String.data` by structural recursion, with the same
semantics on ASCII input. -/

/-- Rust `str::contains(char)` (Lean's `String.contains` recurses on byte
positions and does not reduce in the kernel). -/
def rust_contains (s : String) (c : Char) : Bool := s.data.contains c

/-- Rust `str::trim` (whitespace from both ends). -/
def rust_trim (s : String) : String :=
  ⟨(((s.data.dropWhile Char.isWhitespace).reverse.dropWhile Char.isWhitespace).reverse)⟩

/-- Worker for `rust_split_whitespace`. -/
def split_ws_go : List Char → List Char → List String
  | [], acc => if acc.isEmpty then [] else [⟨acc.reverse⟩]
  | c :: cs, acc =>
    if c.isWhitespace then
      (if acc.isEmpty then [] else [⟨acc.reverse⟩]) ++ split_ws_go cs []
    else split_ws_go cs (c :: acc)

/-- Rust `str::split_whitespace`: split on whitespace runs, no empty items. -/
def rust_split_whitespace (s : String) : List String := split_ws_go s.data []

/-- Worker for `rust_split_char`. -/
def split_char_go (sep : Char) : List Char → List Char → List String
  | [], acc => [⟨acc.reverse⟩]
  | c :: cs, acc =>
    if c = sep then (⟨acc.reverse⟩ : String) :: split_char_go sep cs []
    else split_char_go sep cs (c :: acc)

/-- Rust `str::split(char)`: keeps empty items. -/
def rust_split_char (s : String) (sep : Char) : List String := split_char_go sep s.data []

/-- Rust `str::parse::<u32>()`: optional leading `+`, then decimal digits,
rejecting the empty string, non-digits, and values outside `u32`. -/
def parse_u32 (s : String) : Option Nat :=
  let chars := match s.data with
    | '+' :: rest => rest
    | cs => cs
  if chars.isEmpty then none
  else if chars.all Char.isDigit then
    let n := chars.foldl (fun acc c => acc * 10 + (c.toNat - '0'.toNat)) 0
    if n < 2 ^ 32 then some n else none
  else none

/-- `alg_to_sq` from `engine.rs`. -/
def alg_to_sq (s : String) : Option Nat :=
  let s := rust_trim s
  if s.length < 2 then none
  else
    let chars := s.data
    let f := (chars.getD 0 ' ').toLower
    let rch := chars.getD 1 ' '
    if ¬ ('a' ≤ f ∧ f ≤ 'h') then none
    else if ¬ ('1' ≤ rch ∧ rch ≤ '8') then none
    else some (sq (rch.toNat - '1'.toNat) (f.toNat - 'a'.toNat))

/-- `Board::from_fen` from `engine.rs`.  Note that the source is total: it
returns a `Board` for every input, never an error; unparsable fields fall
back to the defaults of `Board::empty` (`unwrap_or(0)` / `unwrap_or(1)` for
the two counters).  For inputs with more than 8 ranks the source indexes out
of bounds (a panic); the model's out-of-range `List.set` is a no-op there. -/
def Board.from_fen (fen : String) : Board :=
  let b := Board.empty
  let parts := rust_split_whitespace fen
  if parts.isEmpty then b
  else
    -- board
    let ranks := rust_split_char (parts.getD 0 "") '/'
    let cells := ranks.enum.foldl
      (fun cells rpair =>
        let rank : Int := 7 - (rpair.1 : Int)
        (rpair.2.data.foldl
          (fun (st : Nat × List Piece) ch =>
            if ch.isDigit then (st.1 + (ch.toNat - '0'.toNat), st.2)
            else
              let sqi : Nat := if rank < 0 then 2 ^ 64 - 1 else sq rank.toNat st.1
              (st.1 + 1, st.2.set sqi (Piece.from_char ch)))
          (0, cells)).2)
      b.cells
    -- side
    let side_white := if parts.length > 1 then parts.getD 1 "" = "w" else b.side_white
    -- castling
    let castling :=
      if parts.length > 2 then
        let c := parts.getD 2 ""
        (if rust_contains c 'K' then 1 else 0) ||| (if rust_contains c 'Q' then 2 else 0) |||
        (if rust_contains c 'k' then 4 else 0) ||| (if rust_contains c 'q' then 8 else 0)
      else 0
    -- ep
    let ep := if parts.length > 3 ∧ parts.getD 3 "" ≠ "-" then alg_to_sq (parts.getD 3 "")
      else none
    let halfmove := if parts.length > 4 then (parse_u32 (parts.getD 4 "")).getD 0 else 0
    let fullmove := if parts.length > 5 then (parse_u32 (parts.getD 5 "")).getD 1 else 1
    { cells := cells
      side_white := side_white
      castling := castling
      ep := ep
      halfmove_clock := halfmove
      fullmove := fullmove
      history := []
      redo_stack := [] }

/-! ## Concrete instances used by the claim theorems -/

/-- Board for claim C1: FEN `k7/8/8/8/8/8/P7/K7 w - - 0 5` — white king a1,
white pawn a2, black king a8, white to move, fullmove counter 5. -/
def c1_board : Board := Board.from_fen "k7/8/8/8/8/8/P7/K7 w - - 0 5"

/-- Board for claim C2: white king h1, black king g2, white to move.  Every
pseudo-legal white move either captures the black king or lands next to it,
so the source's legality filter (which tests the king of `!board.side_white`)
rejects them all: `gen_moves` is empty while the white king is attacked. -/
def c2_board : Board := Board.from_fen "8/8/8/8/8/8/6k1/7K w - - 0 1"

/-- Board for claim C3: FEN `k3r3/8/8/8/8/8/8/4K2R w K - 0 1` — the white
king on e1 is in check from the black rook on e8, white may castle kingside,
f1 and g1 are empty. -/
def c3_board : Board := Board.from_fen "k3r3/8/8/8/8/8/8/4K2R w K - 0 1"

/-- An all-zero Zobrist key table (a degenerate but well-typed instance of
the key tables; the C2 branch under scrutiny is reached for every table). -/
def zob_zero : Zobrist :=
  { pieces := fun _ _ => 0, side := 0, castling := fun _ => 0
    ep_file := fun _ => 0, ep_square := fun _ => 0, seed := 0 }

/-- A fresh search record over a one-bucket empty table. -/
def info_fresh : SearchInfo :=
  { nodes := 0, tt := TranspositionTable.new_buckets 1, zob := zob_zero }

/-- Piece removed by the en-passant branch of `Board::make_move` for a given
call (`Empty` when that branch does not fire).  This names what the claim C6
calls "an en passant capture". -/
def ep_captured_piece (b : Board) (mfrom mto : Nat) : Piece :=
  match b.ep with
  | some ep_sq =>
    if b.cells.getD mfrom Piece.Empty = Piece.WP ∧ mto = ep_sq ∧ mfrom >>> 4 = 4 then
      b.cells.getD (mto - 16) Piece.Empty
    else if b.cells.getD mfrom Piece.Empty = Piece.BP ∧ mto = ep_sq ∧ mfrom >>> 4 = 3 then
      b.cells.getD (mto + 16) Piece.Empty
    else Piece.Empty
  | none => Piece.Empty

/-- Probing a table all of whose entries are empty is always a `Miss`. -/
theorem probe_miss_of_all_empty (tt : TranspositionTable) (key : Nat)
    (depth alpha beta : Int) (h : ∀ e ∈ tt.buckets, e.is_empty = true) :
    (tt.probe key depth alpha beta).1 = ProbeResult.Miss := by
  have he : ∀ idx, (tt.buckets.getD idx TTEntry.empty).is_empty = true := by
    intro idx
    rcases Nat.lt_or_ge idx tt.buckets.length with hlt | hge
    · rw [List.getD_eq_getElem tt.buckets TTEntry.empty hlt]
      exact h _ (List.getElem_mem hlt)
    · rw [List.getD_eq_default tt.buckets TTEntry.empty hge]
      rfl
  have he' : ∀ idx : Nat, ((tt.buckets[idx]?).getD TTEntry.empty).is_empty = true := by
    intro idx
    have := he idx
    rwa [List.getD_eq_getElem?_getD] at this
  simp only [TranspositionTable.probe]
  simp [he']

/-! ## Claim theorems -/

/-- C10: `undo_move` on a board with empty history, and `redo_move` on a
board with empty redo stack, return the board unchanged (every field). -/
theorem C10_undo_redo_empty_noop (b : Board) :
    (b.history = [] → b.undo_move = b) ∧ (b.redo_stack = [] → b.redo_move = b) := by
  constructor
  · intro h
    simp only [Board.undo_move, h]
  · intro h
    simp only [Board.redo_move, h]

/-- C10 witness: the two no-ops at the concrete starting board. -/
theorem C10_undo_redo_empty_noop_witness :
    Board.empty.undo_move = Board.empty ∧ Board.empty.redo_move = Board.empty :=
  ⟨(C10_undo_redo_empty_noop Board.empty).1 rfl,
   (C10_undo_redo_empty_noop Board.empty).2 rfl⟩

/-- C1 (the code violates the claim): on the legal board `c1_board`
(fullmove 5, white to move) the legal pawn push a2a3 followed by
`undo_move` does not restore the board: `undo_move` decrements the fullmove
counter after undoing a white move (and fails to decrement it after a black
one), so the fullmove field comes back as 4 instead of 5. -/
theorem C1_undo_make_not_identity :
    (Move.mk 16 32 none) ∈ gen_moves c1_board ∧
    c1_board.fullmove = 5 ∧
    ((c1_board.make_move 16 32 none).undo_move).fullmove = 4 ∧
    (c1_board.make_move 16 32 none).undo_move ≠ c1_board := by decide

/-- C3 (the code violates the claim): on `c3_board` the white king on e1 is
currently in check, yet `gen_moves` still offers the kingside castling move
e1g1 (square 4 to square 6): the generator checks only the rights bit and
emptiness, and the legality filter tests the opponent's king. -/
theorem C3_castle_offered_while_in_check :
    (Move.mk 4 6 none) ∈ gen_moves c3_board ∧
    is_king_attacked c3_board true = true := by decide

/-- C7 (the code violates the claim): FEN parsing is total and reports no
failure; on the malformed input `"xyz"` it silently installs the all-default
board (and default counters for unparsable numeric fields) instead of
returning a typed error. -/
theorem C7_from_fen_total_no_error :
    Board.from_fen "xyz" = Board.empty ∧
    (Board.from_fen "8/8/8/8/8/8/8/8 w - - junk junk").halfmove_clock = 0 ∧
    (Board.from_fen "8/8/8/8/8/8/8/8 w - - junk junk").fullmove = 1 := by decide

/-- C5: the Zobrist key of a board depends only on the four observable
fields `cells`, `side_white`, `castling` and `ep`; the clocks and the two
stacks do not feed into it. -/
theorem C5_hash_depends_only_on_observables (z : Zobrist) (b1 b2 : Board)
    (hcells : b1.cells = b2.cells) (hside : b1.side_white = b2.side_white)
    (hcast : b1.castling = b2.castling) (hep : b1.ep = b2.ep) :
    z.hash_board b1 = z.hash_board b2 := by
  simp only [Zobrist.hash_board, hcells, hside, hcast, hep]

/-- C5 witness: two concrete boards agreeing on the observable fields but
differing in halfmove clock, fullmove and history hash identically. -/
theorem C5_hash_depends_only_on_observables_witness :
    zob_zero.hash_board Board.empty =
    zob_zero.hash_board { Board.empty with
      halfmove_clock := 99, fullmove := 7
      history := [{ mv_from := 0, mv_to := 0, moved_piece := Piece.Empty
                    captured := Piece.Empty, prev_castling := 0, prev_ep := none
                    prev_halfmove := 0, promotion := none }] } :=
  C5_hash_depends_only_on_observables zob_zero _ _ rfl rfl rfl rfl

/-- C2 (the code violates the claim as stated): on `c2_board` (white to
move, in check, no legal move) a call at depth 3, ply 1 returns
`-100000 + (100 - 3) = -99903`, whereas the claim's `-100000 + ply`
predicts `-99999`: the source computes the mate score from the remaining
depth, not from the ply. -/
theorem C2_mate_score_counterexample :
    gen_moves c2_board = [] ∧
    is_king_attacked c2_board c2_board.side_white = true ∧
    (negamax 1 c2_board 3 1 (-1000000) 1000000 info_fresh).1 = -99903 ∧
    (-99903 : Int) ≠ -100000 + 1 := by decide

/-- C2 (amended): with no usable table entry (here: a table whose entries
are all empty), nonzero depth, and an empty legal-move list, `negamax`
returns `-100000 + (100 - depth)` when the side to move is in check and 0
otherwise (stalemate). -/
theorem C2_negamax_empty_moves (fuel : Nat) (b : Board) (depth ply alpha beta : Int)
    (nodes : Nat) (tt : TranspositionTable) (z : Zobrist)
    (hTT : ∀ e ∈ tt.buckets, e.is_empty = true)
    (hd : depth ≠ 0)
    (hmv : gen_moves b = []) :
    (negamax (fuel + 1) b depth ply alpha beta ⟨nodes, tt, z⟩).1 =
      if is_king_attacked b b.side_white then -100000 + (100 - depth) else 0 := by
  have hp := probe_miss_of_all_empty tt (z.hash_board b) depth alpha beta hTT
  simp only [negamax]
  rw [hp]
  simp [hd, hmv]

/-- C2 witness: the amended statement instantiated at `c2_board`, depth 3,
ply 1, over the fresh one-bucket table. -/
theorem C2_negamax_empty_moves_witness :
    (∀ e ∈ (TranspositionTable.new_buckets 1).buckets, e.is_empty = true) ∧
    (3 : Int) ≠ 0 ∧ gen_moves c2_board = [] ∧
    (negamax (0 + 1) c2_board 3 1 (-1000000) 1000000
        ⟨0, TranspositionTable.new_buckets 1, zob_zero⟩).1 =
      if is_king_attacked c2_board c2_board.side_white then -100000 + (100 - 3) else 0 :=
  ⟨by decide, by decide, by decide,
   C2_negamax_empty_moves 0 c2_board 3 1 (-1000000) 1000000 0
     (TranspositionTable.new_buckets 1) zob_zero (by decide) (by decide) (by decide)⟩

/-- C4 (the code violates the claim as stated): starting from a fresh
one-bucket table, `store(0, 10, 1, Exact, none)` fills the bucket; a
subsequent `store(1, 5, 2, Exact, none)` maps to the same bucket, loses the
replacement decision (shallower, same age, different key), and writes
nothing, so `probe(1, 5, α, β)` (with depth 5 ≤ 5) misses instead of
returning `Usable(2, _)`. -/
theorem C4_store_probe_counterexample :
    ¬ ∃ bm, ((((TranspositionTable.new_buckets 1).store 0 10 1 NodeType.Exact none).store 1 5 2
        NodeType.Exact none).probe 1 5 (-1000000) 1000000).1 = ProbeResult.Usable 2 bm := by
  have h : ((((TranspositionTable.new_buckets 1).store 0 10 1 NodeType.Exact none).store 1 5 2
      NodeType.Exact none).probe 1 5 (-1000000) 1000000).1 = ProbeResult.Miss := by decide
  rintro ⟨bm, hbm⟩
  rw [h] at hbm
  exact ProbeResult.noConfusion hbm

/-- C4 (amended): when the bucket that `k` maps to is empty (so the store
wins its replacement decision) and `0 ≤ d' ≤ d`, `store(k,d,v,Exact,bm)`
followed by `probe(k,d',α,β)` returns `Usable(v, Some(packed bm))`. -/
theorem C4_store_probe_exact (tt : TranspositionTable) (k : Nat) (d d' alpha beta v : Int)
    (bm : Option (Nat × Nat × Nat))
    (hlen : tt.buckets.length = tt.mask + 1)
    (hempty : (tt.buckets.getD (tt.index_of k) TTEntry.empty).is_empty = true)
    (hd : 0 ≤ d) (hdd : d' ≤ d) :
    ((tt.store k d v NodeType.Exact bm).probe k d' alpha beta).1 =
      ProbeResult.Usable v (some (packed_of_best bm)) := by
  have hidx : tt.index_of k < tt.buckets.length := by
    rw [hlen]
    exact Nat.lt_succ_of_le Nat.and_le_right
  rw [List.getD_eq_getElem?_getD] at hempty
  simp only [TranspositionTable.index_of] at hempty hidx
  have hstore : tt.store k d v NodeType.Exact bm =
      { tt with
        stores := (tt.stores + 1) % 2 ^ 64
        buckets := tt.buckets.set ((k ^^^ k >>> 32 ^^^ k >>> 16) &&& tt.mask)
          (TTEntry.mk k v d NodeType.Exact tt.age (packed_of_best bm)) } := by
    simp only [TranspositionTable.store, TranspositionTable.index_of]
    simp [hempty]
  rw [hstore]
  simp only [TranspositionTable.probe, TranspositionTable.index_of]
  simp only [List.getD_eq_getElem?_getD, List.getElem?_set_self hidx, Option.getD_some]
  have hne : (TTEntry.mk k v d NodeType.Exact tt.age (packed_of_best bm)).is_empty = false := by
    simp [TTEntry.is_empty]
    omega
  simp [hne, hdd]

/-- C4 witness: the amended statement at a concrete 4-bucket table. -/
theorem C4_store_probe_exact_witness :
    ((TranspositionTable.new_buckets 4).buckets.length = (TranspositionTable.new_buckets 4).mask + 1) ∧
    (((TranspositionTable.new_buckets 4).buckets.getD
        ((TranspositionTable.new_buckets 4).index_of 5) TTEntry.empty).is_empty = true) ∧
    (0 : Int) ≤ 7 ∧ (3 : Int) ≤ 7 ∧
    (((TranspositionTable.new_buckets 4).store 5 7 42 NodeType.Exact
        (some (10, 20, 1))).probe 5 3 (-1000000) 1000000).1 =
      ProbeResult.Usable 42 (some (packed_of_best (some (10, 20, 1)))) :=
  ⟨by decide, by decide, by decide, by decide,
   C4_store_probe_exact (TranspositionTable.new_buckets 4) 5 7 3 (-1000000) 1000000 42
     (some (10, 20, 1)) (by decide) (by decide) (by decide) (by decide)⟩

/-- Board for claim C6's counterexample: FEN
`k7/8/8/8/8/8/8/KR6 w - - 4294967295 1` — a position whose halfmove clock
already holds the u32 maximum. -/
def c6_board : Board := Board.from_fen "k7/8/8/8/8/8/8/KR6 w - - 4294967295 1"

/-- C6 (the claim as stated fails at the u32 wrap point): on `c6_board`
(halfmove clock 4294967295 = 2^32 - 1) the quiet rook move b1b2 (square 1 to
square 17) — no pawn, no capture, no en passant — leaves a halfmove clock of
0, because the u32 increment wraps in a release build (a debug build panics
instead).  So a zero clock does not imply a pawn move or a capture. -/
theorem C6_halfmove_wrap_counterexample :
    c6_board.halfmove_clock = 4294967295 ∧
    (c6_board.make_move 1 17 none).halfmove_clock = 0 ∧
    c6_board.cells.getD 1 Piece.Empty ≠ Piece.WP ∧
    c6_board.cells.getD 1 Piece.Empty ≠ Piece.BP ∧
    c6_board.cells.getD 17 Piece.Empty = Piece.Empty ∧
    ep_captured_piece c6_board 1 17 = Piece.Empty := by decide

/-- C6 (amended): after any `make_move` from a board whose halfmove clock is
below the u32 maximum, the clock is 0 exactly when the moved piece (the
pre-move content of the source square) was a pawn or the move captured a
piece — a piece on the destination square or an en passant capture — and is
the old clock plus one otherwise. -/
theorem C6_halfmove_clock (b : Board) (mfrom mto : Nat) (promo : Option Piece)
    (hclock : b.halfmove_clock < 2 ^ 32 - 1) :
    (b.make_move mfrom mto promo).halfmove_clock =
      if b.cells.getD mfrom Piece.Empty = Piece.WP ∨ b.cells.getD mfrom Piece.Empty = Piece.BP ∨
         b.cells.getD mto Piece.Empty ≠ Piece.Empty ∨ ep_captured_piece b mfrom mto ≠ Piece.Empty
      then 0 else b.halfmove_clock + 1 := by
  have hm : (b.halfmove_clock + 1) % 2 ^ 32 = b.halfmove_clock + 1 :=
    Nat.mod_eq_of_lt (by omega)
  simp only [List.getD_eq_getElem?_getD]
  rcases hep : b.ep with - | ep_sq
  · simp only [Board.make_move, ep_captured_piece, hep, List.getD_eq_getElem?_getD]
    by_cases h1 : (b.cells[mfrom]?).getD Piece.Empty = Piece.WP <;>
      by_cases h2 : (b.cells[mfrom]?).getD Piece.Empty = Piece.BP <;>
      by_cases h3 : (b.cells[mto]?).getD Piece.Empty = Piece.Empty <;>
      simp [h1, h2, h3, Piece.is_empty, hm] <;> omega
  · simp only [Board.make_move, ep_captured_piece, hep, List.getD_eq_getElem?_getD]
    by_cases hc1 : (b.cells[mfrom]?).getD Piece.Empty = Piece.WP ∧ mto = ep_sq ∧ mfrom >>> 4 = 4
    · simp [hc1, hc1.1]
    · by_cases hc2 : (b.cells[mfrom]?).getD Piece.Empty = Piece.BP ∧ mto = ep_sq ∧ mfrom >>> 4 = 3
      · simp [hc1, hc2, hc2.1]
      · simp only [if_neg hc1, if_neg hc2]
        by_cases h1 : (b.cells[mfrom]?).getD Piece.Empty = Piece.WP <;>
          by_cases h2 : (b.cells[mfrom]?).getD Piece.Empty = Piece.BP <;>
          by_cases h3 : (b.cells[mto]?).getD Piece.Empty = Piece.Empty <;>
          simp [h1, h2, h3, Piece.is_empty, hm] <;> omega

/-- C6 witness: the amended statement at the empty board (clock 0) and the
quiet move from square 0 to square 1. -/
theorem C6_halfmove_clock_witness :
    Board.empty.halfmove_clock < 2 ^ 32 - 1 ∧
    (Board.empty.make_move 0 1 none).halfmove_clock =
      (if Board.empty.cells.getD 0 Piece.Empty = Piece.WP ∨
          Board.empty.cells.getD 0 Piece.Empty = Piece.BP ∨
          Board.empty.cells.getD 1 Piece.Empty ≠ Piece.Empty ∨
          ep_captured_piece Board.empty 0 1 ≠ Piece.Empty
       then 0 else Board.empty.halfmove_clock + 1) :=
  ⟨by decide, C6_halfmove_clock Board.empty 0 1 none (by decide)⟩

/-- C8: packing a from-square and to-square below 128 and a promotion id
below 16 and unpacking returns exactly the inputs. -/
theorem C8_pack_unpack (f t p : Nat) (hf : f < 128) (ht : t < 128) (hp : p < 16) :
    (PackedMove.pack f t p).unpack = (f, t, p) := by
  have m7 : ∀ x : Nat, x &&& 0x7F = x % 128 := fun x => Nat.and_pow_two_sub_one_eq_mod x 7
  have m4 : ∀ x : Nat, x &&& 0x0F = x % 16 := fun x => Nat.and_pow_two_sub_one_eq_mod x 4
  have hf' : f &&& 0x7F = f := by rw [m7, Nat.mod_eq_of_lt hf]
  have ht' : t &&& 0x7F = t := by rw [m7, Nat.mod_eq_of_lt ht]
  have hp' : p &&& 0x0F = p := by rw [m4, Nat.mod_eq_of_lt hp]
  have hor1 : f ||| t <<< 7 = 128 * t + f := by
    rw [Nat.shiftLeft_eq, Nat.lor_comm]
    rw [show t * 2 ^ 7 = 2 ^ 7 * t by ring]
    rw [← Nat.mul_add_lt_is_or hf t]
  have hsum : 128 * t + f < 2 ^ 14 := by omega
  have hor2 : (f ||| t <<< 7) ||| p <<< 14 = 16384 * p + (128 * t + f) := by
    rw [hor1, Nat.shiftLeft_eq, Nat.lor_comm]
    rw [show p * 2 ^ 14 = 2 ^ 14 * p by ring]
    rw [← Nat.mul_add_lt_is_or hsum p]
  simp only [PackedMove.pack, PackedMove.unpack, hf', ht', hp', hor2]
  rw [Nat.shiftRight_eq_div_pow, Nat.shiftRight_eq_div_pow, m7, m7, m4]
  refine Prod.ext ?_ (Prod.ext ?_ ?_) <;> simp <;> omega

/-- C8 witness: round trip at a concrete move. -/
theorem C8_pack_unpack_witness :
    (5 : Nat) < 128 ∧ (119 : Nat) < 128 ∧ (4 : Nat) < 16 ∧
    (PackedMove.pack 5 119 4).unpack = (5, 119, 4) :=
  ⟨by decide, by decide, by decide,
   C8_pack_unpack 5 119 4 (by decide) (by decide) (by decide)⟩

/-- C9: `store` leaves every bucket other than the one `key` maps to
untouched, whatever the replacement decision. -/
theorem C9_store_frame (tt : TranspositionTable) (key : Nat) (depth value : Int)
    (node : NodeType) (bm : Option (Nat × Nat × Nat)) (j : Nat)
    (hj : j ≠ tt.index_of key) :
    (tt.store key depth value node bm).buckets.getD j TTEntry.empty =
      tt.buckets.getD j TTEntry.empty := by
  have hset : ∀ e : TTEntry, (tt.buckets.set (tt.index_of key) e).getD j TTEntry.empty
      = tt.buckets.getD j TTEntry.empty := by
    intro e
    rw [List.getD_eq_getElem?_getD, List.getD_eq_getElem?_getD,
        List.getElem?_set_ne (Ne.symm hj)]
  simp only [TranspositionTable.store, TranspositionTable.index_of] at hset hj ⊢
  split
  all_goals repeat' split
  all_goals first | exact hset _ | rfl

/-- C9 witness: a store into bucket 0 of a two-bucket table leaves bucket 1
unchanged. -/
theorem C9_store_frame_witness :
    (1 : Nat) ≠ (TranspositionTable.new_buckets 2).index_of 0 ∧
    ((TranspositionTable.new_buckets 2).store 0 3 7 NodeType.Exact none).buckets.getD 1
        TTEntry.empty =
      (TranspositionTable.new_buckets 2).buckets.getD 1 TTEntry.empty :=
  ⟨by decide,
   C9_store_frame (TranspositionTable.new_buckets 2) 0 3 7 NodeType.Exact none 1 (by decide)⟩

end ChessRust
